import Mathlib

/-!
Shallow embedding of the image-transcription pipeline of this repository
(src/file_handler.py, src/local_image_classifier.py, src/llm_handler.py,
src/transcription_tool.py).

Filesystem facts (existence, directory status, read results) and the results
of the external model calls (DiT classifier, TrOCR local OCR, OpenAI API) are
explicit inputs of the embedded functions: each oracle field models the value
that the corresponding call returns at the single program point where the
source invokes it.  Confidence scores (Python floats) are modelled as
rationals; the only arithmetic the source performs on a score is the
comparison against the constant threshold 0.5, which is exact in both
representations.  Paths are modelled as their component lists, with the
pathlib semantics of name, parent, stem and suffix embedded below.
-/

/-- A filesystem path, as its list of components.  pathlib semantics:
`name` is the final component, `parent` drops it, the `/` operator appends
a component. -/
abbrev FsPath := List String

/-- Final component of a path (pathlib `Path.name`). -/
def pathName (p : FsPath) : String := p.getLastD ""

/-- Parent of a path (pathlib `Path.parent`). -/
def pathParent (p : FsPath) : FsPath := p.dropLast

/-- Embedding of the pathlib stem/suffix split of a file name: the suffix is
the part of the name from the last dot on, provided that dot is neither the
first nor the last character; otherwise the suffix is empty and the stem is
the whole name.  Computed on the reversed character list, where the last dot
of the name is the first dot encountered. -/
def pyStemSuffix (name : String) : String × String :=
  let rev := name.data.reverse
  let b := rev.takeWhile (fun c => c != '.')
  match rev.dropWhile (fun c => c != '.') with
  | [] => (name, "")
  | c :: a =>
    if a = [] ∨ b = [] then (name, "")
    else (⟨a.reverse⟩, ⟨c :: b.reverse⟩)

/-- pathlib `Path.stem` of a file name. -/
def pyStem (name : String) : String := (pyStemSuffix name).1

/-- pathlib `Path.suffix` of a file name. -/
def pySuffix (name : String) : String := (pyStemSuffix name).2

/-- Embedding of Python `str.strip()`: remove leading and trailing
whitespace characters. -/
def pyStrip (s : String) : String :=
  ⟨((s.data.dropWhile Char.isWhitespace).reverse.dropWhile Char.isWhitespace).reverse⟩

/-- Embedding of Python `str.lower()`: lower-case every character. -/
def pyLower (s : String) : String := ⟨s.data.map Char.toLower⟩

/-- file_handler.py line 8: the fixed allow-list of supported extensions. -/
def SUPPORTED_IMAGE_EXTENSIONS : List String := [".jpg", ".jpeg"]

/-- A value handed to one of the file-handling functions: either an actual
`pathlib.Path` (modelled by its components) or any value of another type,
which the `isinstance` guards of file_handler.py reject. -/
inductive PyVal where
  | path (p : FsPath)
  | notPath
deriving DecidableEq, Repr

/-- Embedding of `validate_image_file` (file_handler.py lines 10-40).
`path_exists` and `is_file` are the filesystem answers to the
`image_path.exists()` and `image_path.is_file()` calls.  The function never
reads file contents: no content is among its inputs. -/
def validate_image_file (image_path : PyVal) (path_exists is_file : Bool) : Bool :=
  match image_path with
  | .notPath => false
  | .path p =>
    if !path_exists then false
    else if !is_file then false
    else if !(SUPPORTED_IMAGE_EXTENSIONS.contains (pyLower (pySuffix (pathName p)))) then false
    else true

/-- The parts of filesystem state the persister mutates: the set of existing
directories and the files with their text contents. -/
structure FsState where
  dirs : List FsPath
  files : List (FsPath × String)
deriving DecidableEq, Repr

/-- Effect of `output_dir.mkdir(parents=True, exist_ok=True)` when it
succeeds: the directory and every ancestor of it exist afterwards. -/
def mkdirParents (fs : FsState) (d : FsPath) : FsState :=
  { fs with dirs := d.inits ++ fs.dirs }

/-- Effect of `open(path, "w").write(text)` when it succeeds: the file at
`path` now holds exactly `text`, replacing any previous content. -/
def writeTextFile (fs : FsState) (p : FsPath) (text : String) : FsState :=
  { fs with files := (p, text) :: fs.files.filter (fun q => q.1 != p) }

/-- Content of the file at `p`, if one exists. -/
def fileContent (fs : FsState) (p : FsPath) : Option String :=
  (fs.files.find? (fun q => q.1 == p)).map (fun q => q.2)

/-- Environmental outcomes of the two fallible operations inside
`save_transcription`: whether the `mkdir` call succeeds and whether the
`open`/`write` call succeeds (permission and OS errors). -/
structure SaveEnv where
  mkdir_ok : Bool
  write_ok : Bool
deriving DecidableEq, Repr

/-- Embedding of file_handler.py lines 88-105: build the output file name
from the stem of the input image, join it to the output directory, and
attempt the write.  On write failure the function returns failure and the
files are unchanged. -/
def saveWrite (fs : FsState) (senv : SaveEnv) (text : String) (p : FsPath)
    (outDir : FsPath) : Option FsPath × FsState :=
  let output_file_path := outDir ++ [pyStem (pathName p) ++ ".txt"]
  if senv.write_ok then (some output_file_path, writeTextFile fs output_file_path text)
  else (none, fs)

/-- Embedding of `save_transcription` (file_handler.py lines 42-105):
reject non-Path arguments, resolve the output directory (the parent of the
input image when none is supplied), create a supplied output directory with
parents (failure aborts before any write), then write the text. -/
def save_transcription (fs : FsState) (senv : SaveEnv) (transcription_text : String)
    (input_image_path : PyVal) (output_directory : Option PyVal) : Option FsPath × FsState :=
  match input_image_path with
  | .notPath => (none, fs)
  | .path p =>
    match output_directory with
    | none => saveWrite fs senv transcription_text p (pathParent p)
    | some .notPath => (none, fs)
    | some (.path d) =>
      if senv.mkdir_ok then saveWrite (mkdirParents fs d) senv transcription_text p d
      else (none, fs)

/-- Embedding of `load_prompt_file` (file_handler.py lines 107-150).
`is_file` answers the `prompt_file_path.is_file()` call; `read_result` is
the outcome of reading the file (`none` models a read, permission or
decoding error).  A successfully read content is stripped of leading and
trailing whitespace and returned even when the stripped content is empty. -/
def load_prompt_file (prompt_file_path : PyVal) (is_file : Bool)
    (read_result : Option String) : Option String :=
  match prompt_file_path with
  | .notPath => none
  | .path _ =>
    if !is_file then none
    else
      match read_result with
      | none => none
      | some content => some (pyStrip content)

/-- Embedding of the prompt-resolution check in `get_prompt_content`
(transcription_tool.py lines 88-95), parameterized by the result of
`load_prompt_file` on the resolved prompt path: `if not prompt_content:
return None` treats both a load failure and an empty loaded prompt as
fatal. -/
def get_prompt_content (prompt_content : Option String) : Option String :=
  match prompt_content with
  | none => none
  | some s => if s = "" then none else some s

/-- local_image_classifier.py line 19: the confidence threshold. -/
def MIN_CONFIDENCE_SCORE : ℚ := 1 / 2

/-- Embedding of the label-mapping block of `classify_text_type_local`
(local_image_classifier.py lines 83-106), taking the top label (already
lower-cased, as the source lower-cases it on extraction) and its score:
below-threshold scores are overridden to "undetermined" regardless of the
label, then the label is bucketed by the fixed table. -/
def primaryClassification (top_label : String) (top_score : ℚ) : String :=
  if top_score < MIN_CONFIDENCE_SCORE then "undetermined"
  else if top_label = "handwritten" then "handwritten"
  else if top_label ∈ ["letter", "form", "email", "memo", "resume",
      "scientific publication", "report", "specification", "news article",
      "invoice"] then "typewritten"
  else if top_label ∈ ["advertisement", "budget", "file folder",
      "presentation", "questionnaire", "scientific report"] then "other_document_type"
  else "other_document_type"

/-- Embedding of `classify_text_type_local` (local_image_classifier.py
lines 43-116).  `initialized` models the classifier-pipeline singleton being
available; `image_error` models `Image.open` or the pipeline raising; the
prediction list is the DiT output, highest score first. -/
def classify_text_type_local (initialized : Bool) (image_error : Bool)
    (predictions : List (String × ℚ)) : Option String × Option (List (String × ℚ)) :=
  if !initialized then (none, none)
  else if image_error then (none, none)
  else
    match predictions with
    | [] => (some "undetermined", none)
    | (label, score) :: _ => (some (primaryClassification (pyLower label) score), some predictions)

/-- The two transcription backends. -/
inductive Backend where
  | localRecognizer
  | cloudTranscriber
deriving DecidableEq, Repr

/-- Embedding of the backend dispatch of `process_single_image`
(transcription_tool.py lines 136 and 145): the effective image type
"handwritten" goes to the local TrOCR recognizer, every other effective type
goes to the OpenAI cloud transcriber. -/
def routeBackend (effective_image_type : String) : Backend :=
  if effective_image_type = "handwritten" then .localRecognizer
  else .cloudTranscriber

/-- A backend invocation performed while processing one item. -/
inductive BackendCall where
  | localOcr
  | cloudLlm
deriving DecidableEq, Repr

/-- Oracle inputs of one `process_single_image` run: filesystem answers for
the validation of this image, the primary classification the classifier
returns (`none` models classifier failure), the results the two backends
would return at their call sites, the OpenAI configuration flag, and the
outcomes of the two fallible persister operations. -/
structure ItemEnv where
  path_exists : Bool
  is_file : Bool
  classification : Option String
  local_ocr : Option String
  openai_configured : Bool
  llm : Option String
  mkdir_ok : Bool
  write_ok : Bool
deriving DecidableEq, Repr

/-- Result of processing one item: the boolean outcome of
`process_single_image`, the backend calls made, and the filesystem state
afterwards. -/
structure ItemResult where
  ok : Bool
  calls : List BackendCall
  fs : FsState
deriving DecidableEq, Repr

/-- Embedding of `process_single_image` (transcription_tool.py lines
97-175): validate, classify (a `none` primary classification becomes the
effective type "undetermined"), dispatch on the effective type, invoke the
selected backend (failing the item on backend failure, and for the cloud
path failing before any call when the OpenAI API is not configured), then
persist the transcription. -/
def process_single_image (env : ItemEnv) (fs : FsState) (image_path : FsPath)
    (output_dir : Option FsPath) : ItemResult :=
  if validate_image_file (.path image_path) env.path_exists env.is_file then
    let effective_image_type := env.classification.getD "undetermined"
    if effective_image_type = "handwritten" then
      match env.local_ocr with
      | none => ⟨false, [.localOcr], fs⟩
      | some transcription =>
        let saved := save_transcription fs ⟨env.mkdir_ok, env.write_ok⟩ transcription
          (.path image_path) (output_dir.map .path)
        ⟨saved.1.isSome, [.localOcr], saved.2⟩
    else
      if !env.openai_configured then ⟨false, [], fs⟩
      else
        match env.llm with
        | none => ⟨false, [.cloudLlm], fs⟩
        | some transcription =>
          let saved := save_transcription fs ⟨env.mkdir_ok, env.write_ok⟩ transcription
            (.path image_path) (output_dir.map .path)
          ⟨saved.1.isSome, [.cloudLlm], saved.2⟩
  else ⟨false, [], fs⟩

/-- One immediate entry of the batch directory: its name, whether it is a
regular file, and the oracle inputs of its own `process_single_image` run. -/
structure BatchEntry where
  name : String
  is_file : Bool
  env : ItemEnv
deriving Repr

/-- The consideration test of the batch loop (transcription_tool.py line
218): a regular file whose suffix, lower-cased, is in the allow-list. -/
def entryConsidered (e : BatchEntry) : Bool :=
  e.is_file && SUPPORTED_IMAGE_EXTENSIONS.contains (pyLower (pySuffix e.name))

/-- Counters of the batch loop plus the filesystem state threaded through
the items. -/
structure BatchState where
  processed : Nat
  succeeded : Nat
  failed : Nat
  found : Bool
  fs : FsState
deriving Repr

/-- Body of the batch loop (transcription_tool.py lines 217-228): a
considered entry is processed and counted as succeeded or failed, every
other entry is skipped. -/
def batchStep (dirPath out : FsPath) (st : BatchState) (e : BatchEntry) : BatchState :=
  if entryConsidered e then
    let r := process_single_image e.env st.fs (dirPath ++ [e.name]) (some out)
    if r.ok then
      { st with processed := st.processed + 1, succeeded := st.succeeded + 1,
                found := true, fs := r.fs }
    else
      { st with processed := st.processed + 1, failed := st.failed + 1,
                found := true, fs := r.fs }
  else st

/-- Embedding of `process_directory` (transcription_tool.py lines 177-243):
reject a non-directory, resolve the shared output directory (the input
directory when none is supplied), fold the loop body over the immediate
entries, report success when no supported file was found, otherwise succeed
exactly when no item failed. -/
def process_directory (is_dir : Bool) (dirPath : FsPath) (entries : List BatchEntry)
    (fs : FsState) (output_dir_arg : Option FsPath) : Bool × BatchState :=
  if !is_dir then (false, ⟨0, 0, 0, false, fs⟩)
  else
    let actual_output_dir := output_dir_arg.getD dirPath
    let st := entries.foldl (batchStep dirPath actual_output_dir) ⟨0, 0, 0, false, fs⟩
    if !st.found then (true, st)
    else (st.failed == 0, st)

/-- Whether the item of a batch entry succeeds.  The boolean outcome of
`process_single_image` does not depend on the incoming filesystem state
(proved below), so it is evaluated here on the empty state. -/
def entrySucceeds (dirPath out : FsPath) (e : BatchEntry) : Bool :=
  (process_single_image e.env ⟨[], []⟩ (dirPath ++ [e.name]) (some out)).ok

/-- The output path `save_transcription` targets for a given input image
and optional output directory. -/
def saveTargetPath (p : FsPath) (o : Option FsPath) : FsPath :=
  (o.getD (pathParent p)) ++ [pyStem (pathName p) ++ ".txt"]

theorem saveWrite_fst (fs fs' : FsState) (senv : SaveEnv) (t : String) (p outDir : FsPath) :
    (saveWrite fs senv t p outDir).1 = (saveWrite fs' senv t p outDir).1 := by
  unfold saveWrite
  split <;> rfl

theorem save_transcription_fst (fs fs' : FsState) (senv : SaveEnv) (t : String)
    (i : PyVal) (od : Option PyVal) :
    (save_transcription fs senv t i od).1 = (save_transcription fs' senv t i od).1 := by
  unfold save_transcription
  rcases i with p | _
  · rcases od with _ | v
    · exact saveWrite_fst fs fs' senv t p (pathParent p)
    · rcases v with d | _
      · dsimp only
        split
        · exact saveWrite_fst _ _ senv t p d
        · rfl
      · rfl
  · rfl

theorem process_single_image_ok_fs (env : ItemEnv) (p : FsPath) (o : Option FsPath)
    (fs fs' : FsState) :
    (process_single_image env fs p o).ok = (process_single_image env fs' p o).ok := by
  unfold process_single_image
  cases hval : validate_image_file (.path p) env.path_exists env.is_file
  · simp
  · simp only [if_true]
    by_cases heff : env.classification.getD "undetermined" = "handwritten"
    · simp only [heff, if_true]
      rcases env.local_ocr with _ | t
      · rfl
      · simp only [save_transcription_fst fs fs']
    · simp only [heff, if_false]
      cases env.openai_configured <;> rcases env.llm with _ | t <;>
        simp [save_transcription_fst fs fs']

theorem fileContent_writeTextFile (fs : FsState) (p : FsPath) (t : String) :
    fileContent (writeTextFile fs p t) p = some t := by
  unfold fileContent writeTextFile
  rw [List.find?_cons_of_pos]
  · rfl
  · simp

theorem pyStem_append_txt (s : String) (hs : s ≠ "") : pyStem (s ++ ".txt") = s := by
  have hdata : s.data ≠ [] := by
    intro h
    apply hs
    apply String.ext
    simpa using h
  have hd : (s ++ ".txt").data.reverse = 't' :: 'x' :: 't' :: '.' :: s.data.reverse := by
    rw [String.data_append]
    simp [List.reverse_append]
  have h1 : (('t' : Char) != '.') = true := by decide
  have h2 : (('x' : Char) != '.') = true := by decide
  have h3 : (('.' : Char) != '.') = false := by decide
  unfold pyStem pyStemSuffix
  rw [hd]
  simp only [List.dropWhile_cons, List.takeWhile_cons, h1, h2, h3, Bool.false_eq_true,
    if_true, if_false, ite_true, ite_false]
  simp [List.reverse_eq_nil_iff, hdata, List.reverse_reverse]

theorem pySuffix_ne_imp_pyStem_ne (n : String) (h : pySuffix n ≠ "") : pyStem n ≠ "" := by
  unfold pySuffix at h
  unfold pyStem
  unfold pyStemSuffix at h ⊢
  rcases hm : n.data.reverse.dropWhile (fun c => c != '.') with _ | ⟨c, a⟩ <;>
    simp only [hm] at h ⊢
  · exact absurd rfl h
  · split_ifs at h ⊢ with hif
    · exact absurd rfl h
    · push_neg at hif
      simp [String.ext_iff, hif.1]

theorem validate_image_file_contains (p : FsPath) (e f : Bool)
    (h : validate_image_file (.path p) e f = true) :
    SUPPORTED_IMAGE_EXTENSIONS.contains (pyLower (pySuffix (pathName p))) = true := by
  simp only [validate_image_file] at h
  cases e
  · simp at h
  · cases f
    · simp at h
    · cases hc : SUPPORTED_IMAGE_EXTENSIONS.contains (pyLower (pySuffix (pathName p)))
      · rw [hc] at h
        simp at h
      · rfl

theorem supported_suffix_ne_empty (s : String)
    (h : SUPPORTED_IMAGE_EXTENSIONS.contains (pyLower s) = true) : s ≠ "" := by
  rintro rfl
  revert h
  decide

/-- C1: routing a classification result through the label mapping of
`classify_text_type_local` and the backend dispatch of
`process_single_image` selects the LocalRecognizer exactly for the label
"handwritten" at confidence at least the threshold 0.5, and the
CloudTranscriber in every other case (any other label, or any label whose
confidence falls below the threshold, which the mapping overrides to
"undetermined"). -/
theorem routing_handwritten_iff (label : String) (score : ℚ) :
    (routeBackend (primaryClassification label score) = Backend.localRecognizer ↔
      label = "handwritten" ∧ MIN_CONFIDENCE_SCORE ≤ score) ∧
    (routeBackend (primaryClassification label score) = Backend.cloudTranscriber ↔
      ¬(label = "handwritten" ∧ MIN_CONFIDENCE_SCORE ≤ score)) := by
  unfold routeBackend primaryClassification
  by_cases hs : score < MIN_CONFIDENCE_SCORE
  · simp [hs, not_le.mpr hs]
  · by_cases hl : label = "handwritten"
    · simp [hs, hl, not_lt.mp hs]
    · split_ifs <;> simp_all

/-- C8: the validator is a total boolean function of the path metadata
alone (its inputs contain no file content, so it cannot read the file): it
rejects a non-Path argument, and accepts a path exactly when the path
exists, is a regular file, and its lower-cased suffix is in the fixed
allow-list. -/
theorem validate_image_file_spec :
    (∀ e f, validate_image_file PyVal.notPath e f = false) ∧
    (∀ (p : FsPath) (e f : Bool),
      validate_image_file (.path p) e f = true ↔
        e = true ∧ f = true ∧
          SUPPORTED_IMAGE_EXTENSIONS.contains (pyLower (pySuffix (pathName p))) = true) := by
  refine ⟨fun e f => rfl, fun p e f => ?_⟩
  unfold validate_image_file
  cases e <;> cases f <;>
    cases hc : SUPPORTED_IMAGE_EXTENSIONS.contains (pyLower (pySuffix (pathName p))) <;>
    simp_all

/-- C10: every public file-handling operation returns its failure value on
an argument that is not a Path object: the validator returns false, the
persister returns failure (leaving the filesystem untouched) both for a
non-Path source image and for a non-Path output directory, and the prompt
loader returns failure. -/
theorem non_path_inputs_fail :
    (∀ e f, validate_image_file PyVal.notPath e f = false) ∧
    (∀ (fs : FsState) (senv : SaveEnv) (t : String) (od : Option PyVal),
      save_transcription fs senv t PyVal.notPath od = (none, fs)) ∧
    (∀ (fs : FsState) (senv : SaveEnv) (t : String) (p : FsPath),
      save_transcription fs senv t (.path p) (some PyVal.notPath) = (none, fs)) ∧
    (∀ (isf : Bool) (c : Option String), load_prompt_file PyVal.notPath isf c = none) :=
  ⟨fun _ _ => rfl, fun _ _ _ _ => rfl, fun _ _ _ _ => rfl, fun _ _ => rfl⟩

/-- C3: an item whose effective label is "handwritten" and whose local OCR
call fails returns false immediately: the only backend call made is the
local one (no fallback call to the cloud transcriber) and the filesystem is
untouched. -/
theorem local_failure_no_fallback (env : ItemEnv) (fs : FsState) (p : FsPath)
    (o : Option FsPath)
    (hv : validate_image_file (.path p) env.path_exists env.is_file = true)
    (hl : env.classification.getD "undetermined" = "handwritten")
    (ho : env.local_ocr = none) :
    process_single_image env fs p o = ⟨false, [BackendCall.localOcr], fs⟩ := by
  unfold process_single_image
  simp [hv, hl, ho]

theorem local_failure_no_fallback_witness :
    process_single_image
        ⟨true, true, some "handwritten", none, true, some "t", true, true⟩
        ⟨[], []⟩ ["dir", "a.jpg"] none
      = ⟨false, [BackendCall.localOcr], ⟨[], []⟩⟩ :=
  local_failure_no_fallback _ _ _ _ (by decide) (by decide) rfl

/-- C5: an item routed to the cloud backend (effective label other than
"handwritten") fails when the OpenAI API is not configured: the item
processor returns false with no backend call at all (so no transcription is
attempted and nothing is retried) and the filesystem is untouched. -/
theorem cloud_not_configured_fails (env : ItemEnv) (fs : FsState) (p : FsPath)
    (o : Option FsPath)
    (hv : validate_image_file (.path p) env.path_exists env.is_file = true)
    (hl : env.classification.getD "undetermined" ≠ "handwritten")
    (hc : env.openai_configured = false) :
    process_single_image env fs p o = ⟨false, [], fs⟩ := by
  unfold process_single_image
  simp [hv, hl, hc]

theorem cloud_not_configured_fails_witness :
    process_single_image
        ⟨true, true, some "typewritten", none, false, some "t", true, true⟩
        ⟨[], []⟩ ["dir", "a.jpg"] none
      = ⟨false, [], ⟨[], []⟩⟩ :=
  cloud_not_configured_fails _ _ _ _ (by decide) (by decide) rfl

theorem pyStrip_whitespace (s : String) (h : ∀ c ∈ s.data, c.isWhitespace = true) :
    pyStrip s = "" := by
  unfold pyStrip
  have h1 : s.data.dropWhile Char.isWhitespace = [] := by
    rw [List.dropWhile_eq_nil_iff]
    intro x hx
    exact h x hx
  rw [h1]
  rfl

theorem save_path_map_isSome (fs : FsState) (mk wr : Bool) (t : String) (p : FsPath)
    (o : Option FsPath) (hw : wr = true) (hm : ∀ d, o = some d → mk = true) :
    (save_transcription fs ⟨mk, wr⟩ t (.path p) (o.map .path)).1.isSome = true := by
  subst hw
  rcases o with _ | d
  · simp [save_transcription, saveWrite]
  · have hmt : mk = true := hm d rfl
    subst hmt
    simp [save_transcription, saveWrite]

/-- C9: the prompt loader strips whitespace, so a prompt file holding only
whitespace loads as the empty string (a successful load, not a failure);
the prompt-resolution check of the tool then treats that empty prompt as a
load failure and returns failure, so such a file is fatal to the run. -/
theorem whitespace_prompt_fatal (p : FsPath) (w : String)
    (h : ∀ c ∈ w.data, c.isWhitespace = true) :
    load_prompt_file (.path p) true (some w) = some "" ∧
    get_prompt_content (load_prompt_file (.path p) true (some w)) = none := by
  have hs : pyStrip w = "" := pyStrip_whitespace w h
  constructor
  · simp [load_prompt_file, hs]
  · simp [load_prompt_file, get_prompt_content, hs]

theorem whitespace_prompt_fatal_witness :
    load_prompt_file (.path ["prompt.txt"]) true (some "  \n\t ") = some "" ∧
    get_prompt_content (load_prompt_file (.path ["prompt.txt"]) true (some "  \n\t ")) = none :=
  whitespace_prompt_fatal ["prompt.txt"] "  \n\t " (by decide)

/-- C4: when the classifier fails (classification is absent) the item is
processed exactly as if it had been classified "undetermined": the local
backend is never called, the cloud backend is the one called (when the
OpenAI API is configured), and the classifier failure alone never makes the
item processor return false — with the downstream steps succeeding, the
item succeeds. -/
theorem classifier_failure_routes_cloud (env : ItemEnv) (fs : FsState) (p : FsPath)
    (o : Option FsPath)
    (hcls : env.classification = none)
    (hv : validate_image_file (.path p) env.path_exists env.is_file = true) :
    process_single_image env fs p o
        = process_single_image { env with classification := some "undetermined" } fs p o ∧
    BackendCall.localOcr ∉ (process_single_image env fs p o).calls ∧
    (env.openai_configured = true →
      (process_single_image env fs p o).calls = [BackendCall.cloudLlm]) ∧
    (env.openai_configured = true → env.llm.isSome = true → env.write_ok = true →
      (∀ d, o = some d → env.mkdir_ok = true) →
      (process_single_image env fs p o).ok = true) := by
  obtain ⟨pe, isf, cls, ocr, conf, llm, mk, wr⟩ := env
  simp only at hcls hv
  subst hcls
  refine ⟨rfl, ?_, ?_, ?_⟩ <;>
    unfold process_single_image <;>
    simp only [hv, if_true, Option.getD]
  · cases conf
    · simp
    · rcases llm with _ | t
      · simp
      · simp
  · intro hconf
    subst hconf
    rcases llm with _ | t
    · simp
    · simp
  · intro hconf hllm hwr hmk
    subst hconf
    rcases llm with _ | t
    · simp at hllm
    · simp only [Bool.not_true, Bool.false_eq_true, if_false]
      exact save_path_map_isSome fs mk wr t p o hwr hmk

theorem classifier_failure_routes_cloud_witness :
    BackendCall.localOcr ∉
      (process_single_image ⟨true, true, none, none, true, some "text", true, true⟩
        ⟨[], []⟩ ["dir", "a.jpg"] none).calls ∧
    (process_single_image ⟨true, true, none, none, true, some "text", true, true⟩
        ⟨[], []⟩ ["dir", "a.jpg"] none).ok = true :=
  have h := classifier_failure_routes_cloud
      ⟨true, true, none, none, true, some "text", true, true⟩ ⟨[], []⟩ ["dir", "a.jpg"] none
      rfl (by decide)
  ⟨h.2.1, h.2.2.2 rfl rfl rfl (fun _ hd => Option.noConfusion hd)⟩

theorem save_path_success (fs : FsState) (mk wr : Bool) (t : String) (p : FsPath)
    (o : Option FsPath)
    (h : (save_transcription fs ⟨mk, wr⟩ t (.path p) (o.map .path)).1.isSome = true) :
    fileContent (save_transcription fs ⟨mk, wr⟩ t (.path p) (o.map .path)).2
        (saveTargetPath p o) = some t := by
  rcases o with _ | d
  · cases wr
    · simp [save_transcription, saveWrite] at h
    · simp only [Option.map_none', save_transcription, saveWrite, if_true, saveTargetPath,
        Option.getD_none]
      exact fileContent_writeTextFile fs (pathParent p ++ [pyStem (pathName p) ++ ".txt"]) t
  · cases mk
    · simp [save_transcription] at h
    · cases wr
      · simp [save_transcription, saveWrite] at h
      · simp only [Option.map_some', save_transcription, saveWrite, if_true, saveTargetPath,
          Option.getD_some]
        exact fileContent_writeTextFile (mkdirParents fs d)
          (d ++ [pyStem (pathName p) ++ ".txt"]) t

/-- C6: the persister writes to the supplied output directory (or, when
none is supplied, to the directory of the source image) at the file named
by the stem of the source image plus ".txt"; a supplied output directory is
created together with all its ancestors; if that creation fails the
operation fails with the filesystem untouched (no write is attempted); and
on a successful write the target file holds exactly the given text,
overwriting any previous content. -/
theorem save_transcription_spec (fs : FsState) (mk wr : Bool) (text : String)
    (input : FsPath) (outdir : Option FsPath) :
    (wr = true → (outdir = none ∨ mk = true) →
      (save_transcription fs ⟨mk, wr⟩ text (.path input) (outdir.map .path)).1
        = some (saveTargetPath input outdir)) ∧
    (∀ d, outdir = some d → mk = false →
      save_transcription fs ⟨mk, wr⟩ text (.path input) (outdir.map .path) = (none, fs)) ∧
    (∀ d, outdir = some d → mk = true →
      ∀ q ∈ d.inits,
        q ∈ (save_transcription fs ⟨mk, wr⟩ text (.path input) (outdir.map .path)).2.dirs) ∧
    (wr = true → (outdir = none ∨ mk = true) →
      fileContent (save_transcription fs ⟨mk, wr⟩ text (.path input) (outdir.map .path)).2
          (saveTargetPath input outdir)
        = some text) := by
  rcases outdir with _ | d
  · refine ⟨?_, ?_, ?_, ?_⟩
    · rintro rfl _
      simp [save_transcription, saveWrite, saveTargetPath]
    · rintro d hd
      exact absurd hd (by simp)
    · rintro d hd
      exact absurd hd (by simp)
    · rintro rfl _
      exact save_path_success fs mk true text input none (by simp [save_transcription, saveWrite])
  · refine ⟨?_, ?_, ?_, ?_⟩
    · rintro rfl hor
      have hmt : mk = true := by
        rcases hor with h | h
        · exact absurd h (by simp)
        · exact h
      subst hmt
      simp [save_transcription, saveWrite, saveTargetPath]
    · rintro d2 hd2 hmf
      obtain rfl : d = d2 := by injection hd2
      subst hmf
      simp [save_transcription]
    · rintro d2 hd2 hmt q hq
      obtain rfl : d = d2 := by injection hd2
      subst hmt
      cases wr <;>
        simp [save_transcription, saveWrite, mkdirParents, writeTextFile] <;>
        exact Or.inl ((List.mem_inits q d).mp hq)
    · rintro rfl hor
      have hmt : mk = true := by
        rcases hor with h | h
        · exact absurd h (by simp)
        · exact h
      subst hmt
      exact save_path_success fs true true text input (some d)
        (by simp [save_transcription, saveWrite])

theorem save_transcription_spec_witness :
    (save_transcription ⟨[], [(["out", "sub", "doc.txt"], "old")]⟩ ⟨true, true⟩ "new"
        (.path ["in", "doc.jpg"]) (some (.path ["out", "sub"]))).1
      = some ["out", "sub", "doc.txt"] ∧
    ["out"] ∈ (save_transcription ⟨[], [(["out", "sub", "doc.txt"], "old")]⟩ ⟨true, true⟩ "new"
        (.path ["in", "doc.jpg"]) (some (.path ["out", "sub"]))).2.dirs ∧
    fileContent (save_transcription ⟨[], [(["out", "sub", "doc.txt"], "old")]⟩ ⟨true, true⟩ "new"
        (.path ["in", "doc.jpg"]) (some (.path ["out", "sub"]))).2 ["out", "sub", "doc.txt"]
      = some "new" :=
  have h := save_transcription_spec ⟨[], [(["out", "sub", "doc.txt"], "old")]⟩ true true "new"
    ["in", "doc.jpg"] (some ["out", "sub"])
  ⟨h.1 rfl (Or.inr rfl),
   h.2.2.1 ["out", "sub"] rfl rfl ["out"] (by decide),
   h.2.2.2 rfl (Or.inr rfl)⟩

/-- C7: for a successfully processed item, the output file (at the resolved
target path) has the stem of the input image and holds exactly the text the
selected backend returned, with no transformation in between. -/
theorem output_roundtrip (env : ItemEnv) (fs : FsState) (p : FsPath) (o : Option FsPath)
    (hok : (process_single_image env fs p o).ok = true) :
    pyStem (pyStem (pathName p) ++ ".txt") = pyStem (pathName p) ∧
    fileContent (process_single_image env fs p o).fs (saveTargetPath p o)
      = some (if env.classification.getD "undetermined" = "handwritten"
              then env.local_ocr.getD "" else env.llm.getD "") := by
  obtain ⟨pe, isf, cls, ocr, conf, llm, mk, wr⟩ := env
  cases hv : validate_image_file (.path p) pe isf
  · unfold process_single_image at hok
    rw [hv] at hok
    simp at hok
  · constructor
    · have hcont := validate_image_file_contains p pe isf hv
      have hsuf : pySuffix (pathName p) ≠ "" := supported_suffix_ne_empty _ hcont
      exact pyStem_append_txt _ (pySuffix_ne_imp_pyStem_ne _ hsuf)
    · unfold process_single_image at hok ⊢
      by_cases heff : (cls.getD "undetermined") = "handwritten"
      · simp only [hv, heff, if_true] at hok ⊢
        rcases ocr with _ | t
        · simp at hok
        · simp only [Option.getD_some] at hok ⊢
          exact save_path_success fs mk wr t p o hok
      · simp only [hv, heff, if_true, if_false] at hok ⊢
        cases conf
        · simp at hok
        · rcases llm with _ | t
          · simp at hok
          · simp only [Option.getD_some] at hok ⊢
            exact save_path_success fs mk wr t p o hok

theorem output_roundtrip_witness :
    pyStem (pyStem (pathName ["dir", "a.jpg"]) ++ ".txt") = pyStem (pathName ["dir", "a.jpg"]) ∧
    fileContent
        (process_single_image ⟨true, true, some "handwritten", some "Dear Sir", true, none, true, true⟩
          ⟨[], []⟩ ["dir", "a.jpg"] none).fs
        (saveTargetPath ["dir", "a.jpg"] none)
      = some "Dear Sir" :=
  output_roundtrip ⟨true, true, some "handwritten", some "Dear Sir", true, none, true, true⟩
    ⟨[], []⟩ ["dir", "a.jpg"] none (by decide)

theorem filter_partition {α : Type} (l : List α) (p q : α → Bool) :
    (l.filter (fun a => p a && q a)).length + (l.filter (fun a => p a && !q a)).length
      = (l.filter p).length := by
  induction l with
  | nil => rfl
  | cons a t ih =>
    cases hp : p a <;> cases hq : q a <;>
      simp [List.filter_cons, hp, hq] <;> omega


theorem batch_foldl_spec (d o : FsPath) (l : List BatchEntry) :
    ∀ st : BatchState,
      (l.foldl (batchStep d o) st).processed
          = st.processed + (l.filter entryConsidered).length ∧
      (l.foldl (batchStep d o) st).succeeded
          = st.succeeded
            + (l.filter (fun e => entryConsidered e && entrySucceeds d o e)).length ∧
      (l.foldl (batchStep d o) st).failed
          = st.failed
            + (l.filter (fun e => entryConsidered e && !(entrySucceeds d o e))).length ∧
      (l.foldl (batchStep d o) st).found
          = (st.found || !(l.filter entryConsidered).isEmpty) := by
  induction l with
  | nil =>
    intro st
    simp
  | cons e t ih =>
    intro st
    rw [List.foldl_cons]
    cases hc : entryConsidered e
    · have hstep : batchStep d o st e = st := by
        simp [batchStep, hc]
      rw [hstep]
      obtain ⟨h1, h2, h3, h4⟩ := ih st
      refine ⟨?_, ?_, ?_, ?_⟩ <;> simp [h1, h2, h3, h4, List.filter_cons, hc]
    · have hok : (process_single_image e.env st.fs (d ++ [e.name]) (some o)).ok
          = entrySucceeds d o e :=
        process_single_image_ok_fs e.env (d ++ [e.name]) (some o) st.fs ⟨[], []⟩
      cases hs : entrySucceeds d o e
      · have hstep : batchStep d o st e
            = ⟨st.processed + 1, st.succeeded, st.failed + 1, true,
               (process_single_image e.env st.fs (d ++ [e.name]) (some o)).fs⟩ := by
          rw [hs] at hok
          simp [batchStep, hc, hok]
        rw [hstep]
        obtain ⟨h1, h2, h3, h4⟩ := ih ⟨st.processed + 1, st.succeeded, st.failed + 1, true,
          (process_single_image e.env st.fs (d ++ [e.name]) (some o)).fs⟩
        simp only at h1 h2 h3 h4
        refine ⟨?_, ?_, ?_, ?_⟩ <;>
          simp [h1, h2, h3, h4, List.filter_cons, hc, hs] <;> omega
      · have hstep : batchStep d o st e
            = ⟨st.processed + 1, st.succeeded + 1, st.failed, true,
               (process_single_image e.env st.fs (d ++ [e.name]) (some o)).fs⟩ := by
          rw [hs] at hok
          simp [batchStep, hc, hok]
        rw [hstep]
        obtain ⟨h1, h2, h3, h4⟩ := ih ⟨st.processed + 1, st.succeeded + 1, st.failed, true,
          (process_single_image e.env st.fs (d ++ [e.name]) (some o)).fs⟩
        simp only at h1 h2 h3 h4
        refine ⟨?_, ?_, ?_, ?_⟩ <;>
          simp [h1, h2, h3, h4, List.filter_cons, hc, hs] <;> omega

/-- C2: over any directory listing, the batch summary counts every
considered entry (a regular file with a supported extension) whether or not
earlier entries failed, reports succeeded = N - K and failed = K where N is
the number of considered entries and K the number of failing ones, and the
overall result is success exactly when K = 0 — in particular a listing with
no considered entry yields success with zero counts. -/
theorem process_directory_summary (dirPath : FsPath) (entries : List BatchEntry)
    (fs : FsState) (out : Option FsPath) :
    (process_directory true dirPath entries fs out).2.processed
        = (entries.filter entryConsidered).length ∧
    (process_directory true dirPath entries fs out).2.succeeded
        = (entries.filter entryConsidered).length
          - (entries.filter (fun e => entryConsidered e &&
              !(entrySucceeds dirPath (out.getD dirPath) e))).length ∧
    (process_directory true dirPath entries fs out).2.failed
        = (entries.filter (fun e => entryConsidered e &&
            !(entrySucceeds dirPath (out.getD dirPath) e))).length ∧
    ((process_directory true dirPath entries fs out).1 = true ↔
      (entries.filter (fun e => entryConsidered e &&
        !(entrySucceeds dirPath (out.getD dirPath) e))).length = 0) ∧
    ((entries.filter entryConsidered).length = 0 →
      (process_directory true dirPath entries fs out).1 = true ∧
      (process_directory true dirPath entries fs out).2.succeeded = 0 ∧
      (process_directory true dirPath entries fs out).2.failed = 0) := by
  obtain ⟨h1, h2, h3, h4⟩ :=
    batch_foldl_spec dirPath (out.getD dirPath) entries ⟨0, 0, 0, false, fs⟩
  simp only [Nat.zero_add, Bool.false_or] at h1 h2 h3 h4
  have hpart := filter_partition entries entryConsidered
    (entrySucceeds dirPath (out.getD dirPath))
  unfold process_directory
  simp only [Bool.not_true, Bool.false_eq_true, if_false]
  cases hfound :
      (entries.foldl (batchStep dirPath (out.getD dirPath)) ⟨0, 0, 0, false, fs⟩).found
  · rw [hfound] at h4
    have hlen : (entries.filter entryConsidered).length = 0 := by
      cases hem : (entries.filter entryConsidered).isEmpty
      · rw [hem] at h4
        simp at h4
      · rw [List.isEmpty_iff] at hem
        simp [hem]
    have hK : (entries.filter (fun e => entryConsidered e &&
        !(entrySucceeds dirPath (out.getD dirPath) e))).length = 0 := by omega
    simp only [hfound, Bool.not_false, if_true]
    exact ⟨by rw [h1, hlen], by rw [h2]; omega, by rw [h3, hK], by simp [hK],
      fun _ => ⟨by trivial, by rw [h2]; omega, by rw [h3, hK]⟩⟩
  · simp only [hfound, Bool.not_true, Bool.false_eq_true, if_false]
    have hne : (entries.filter entryConsidered).length ≠ 0 := by
      rw [hfound] at h4
      cases hem : (entries.filter entryConsidered).isEmpty
      · intro hz
        rw [List.length_eq_zero] at hz
        rw [hz] at hem
        simp at hem
      · rw [hem] at h4
        simp at h4
    refine ⟨h1, by rw [h2]; omega, h3, ?_, fun hz => absurd hz hne⟩
    rw [h3]
    simp

theorem process_directory_summary_witness :
    (process_directory true ["d"] [] ⟨[], []⟩ none).1 = true ∧
    (process_directory true ["d"] [] ⟨[], []⟩ none).2.succeeded = 0 ∧
    (process_directory true ["d"] [] ⟨[], []⟩ none).2.failed = 0 :=
  (process_directory_summary ["d"] [] ⟨[], []⟩ none).2.2.2.2 rfl
